import Mathlib

/-!
# Verification of the STATAU statistical core against its specification

This file gives a shallow embedding, in Lean 4, of the parts of the STATAU
repository that the checked claims are about:

* `src/core/models.py` — `drop_singletons_func`, `ModelTests.f_test_fe_vs_pooled`,
  `ModelTests.hausman_test`, `StataModel._fit_correlation`, `StataModel._fit_vif`;
* `src/core/table_generator.py` — `generate_merged_html`.

Modelling conventions:

* Python floats are modelled by exact rationals (`ℚ`); external numeric
  routines (scipy distribution CDFs, `np.linalg.pinv`, the off-diagonal
  pandas/scipy correlation values, `statsmodels.variance_inflation_factor`,
  the residual sums of squares produced by fitted regressions) are taken as
  oracle parameters, since their numeric output is not decided by the
  repository code.
* A pandas `DataFrame` is a list of named columns together with rows given as
  maps from column names to optional values; `none` models a missing value
  (NaN).
* Python dictionaries preserve insertion order, so they are modelled by
  ordered association lists with first-match lookup.
* `python`-level in-place mutation of an argument (the `export_options` list)
  is modelled by returning the final state of that argument next to the
  function result.
-/

/-! ## Numeric display helpers -/

/-- Truncation toward zero, the semantics of Python `int(...)` on a number. -/
def intTrunc (q : ℚ) : ℤ :=
  if 0 ≤ q then ⌊q⌋ else -⌊-q⌋

/-- Round to the nearest integer, ties to the even integer: the rounding used
by Python `round` and by `float.__format__` at a decimal digit boundary. -/
def bankersRound (q : ℚ) : ℤ :=
  let f := ⌊q⌋
  let r := q - f
  if r < 1/2 then f
  else if 1/2 < r then f + 1
  else if f % 2 = 0 then f else f + 1

/-- Python `round(x, d)`: round to `d` decimal digits, ties to even.
(On binary floats the tie case is an artifact of the binary representation;
the exact-rational model uses the documented decimal tie-to-even rule.) -/
def roundTo (d : ℕ) (q : ℚ) : ℚ :=
  (bankersRound (q * (10 : ℚ) ^ d) : ℚ) / (10 : ℚ) ^ d

/-- Left-pad a digit string with zeros to width `d`. -/
def padZeros (d : ℕ) (s : String) : String :=
  String.mk (List.replicate (d - s.length) (Char.ofNat 48)) ++ s

/-- Python fixed-point formatting `f"{q:.{d}f}"` on the exact-rational model:
round to `d` decimals and print with exactly `d` fractional digits. -/
def formatFixed (d : ℕ) (q : ℚ) : String :=
  let n := bankersRound (q * (10 : ℚ) ^ d)
  let sign := if n < 0 then "-" else ""
  let a := n.natAbs
  if d = 0 then sign ++ toString a
  else sign ++ toString (a / 10 ^ d) ++ "." ++ padZeros d (toString (a % 10 ^ d))

/-- Render an integer, as Python renders an `int`. -/
def formatInt (z : ℤ) : String :=
  (if z < 0 then "-" else "") ++ toString z.natAbs

/-- Arithmetic mean of a list of rationals (`np.mean`); `0` on the empty list,
which the embedded code never evaluates. -/
def listMean (xs : List ℚ) : ℚ :=
  xs.sum / xs.length

/-- Centered sum of squares `Σ (x - mean)²` of a column. -/
def ssqd (xs : List ℚ) : ℚ :=
  (xs.map (fun x => (x - listMean xs) ^ 2)).sum

/-! ## Data frames and data preparation (`src/core/models.py`) -/

/-- A pandas `DataFrame` over a value type `α`: a list of column names plus
rows, each row a map from column name to an optional value (`none` = NaN). -/
structure DFrame (α : Type) where
  cols : List String
  rows : List (String → Option α)

/-- Number of rows of `df` whose entry in column `entityCol` is the value `v`:
the group size that `df.groupby(entity_col)[entity_col].transform("count")`
assigns to every row of the group of `v`. -/
def entityCount [DecidableEq α] (df : DFrame α) (entityCol : String) (v : α) : ℕ :=
  (df.rows.filter (fun r => r entityCol = some v)).length

/-- The row predicate `counts > 1` of `drop_singletons_func`: pandas
`groupby` omits rows whose key is missing, their transformed count is NaN,
and `NaN > 1` is false, so a row with a missing entity is never kept; a row
with entity value `v` is kept when the group of `v` has more than one row. -/
def singletonKeep [DecidableEq α] (df : DFrame α) (entityCol : String)
    (r : String → Option α) : Bool :=
  match r entityCol with
  | none => false
  | some v => 1 < entityCount df entityCol v

/-- `drop_singletons_func` (src/core/models.py, lines 38-57).
`if not entity_col or entity_col not in df.columns: return df` — an empty
string is falsy in Python, so an empty column name returns the frame
unchanged even when `""` is one of its columns.  Otherwise
`df[counts > 1]`: keep exactly the rows satisfying `singletonKeep`. -/
def drop_singletons_func [DecidableEq α] (df : DFrame α) (entityCol : String) : DFrame α :=
  if entityCol = "" ∨ entityCol ∉ df.cols then df
  else { df with rows := df.rows.filter (singletonKeep df entityCol) }

/-- `df[cols].dropna()`: restrict to the listed columns and drop every row
with a missing value in any of them. -/
def selectDropna (df : DFrame α) (cs : List String) : DFrame α :=
  ⟨cs, df.rows.filter (fun r => cs.all (fun c => (r c).isSome))⟩

/-- `df[c].nunique()`: the number of distinct non-missing values in column
`c`. -/
def nuniqueCol [DecidableEq α] (df : DFrame α) (c : String) : ℕ :=
  ((df.rows.filterMap (fun r => r c)).dedup).length

/-! ## Specification tests (`src/core/models.py`, class `ModelTests`) -/

/-- Result record of `ModelTests.f_test_fe_vs_pooled` (the numeric fields;
hypothesis/conclusion text is omitted from the model). -/
structure FTestResult where
  fStatistic : ℚ
  df1 : ℤ
  df2 : ℤ
  pValue : ℚ
  rssPooled : ℚ
  rssFe : ℚ
  nEntities : ℕ
  nObs : ℕ

/-- `ModelTests.f_test_fe_vs_pooled` (src/core/models.py, lines 1349-1432).
The two regressions themselves are external library calls
(`smf.ols(...).fit().ssr` and `PanelOLS(...).fit().resid_ss`): they enter the
model as the oracles `rssPooledOf` and `rssFeOf`, each applied to the cleaned
frame the code hands to the corresponding fit.  `fCdf q d1 d2` is the oracle
for `scipy.stats.f.cdf(q, d1, d2)`. -/
def f_test_fe_vs_pooled [DecidableEq α] (df : DFrame α) (yVar : String)
    (xVars : List String) (entityCol timeCol : String) (decimals : ℕ)
    (rssPooledOf rssFeOf : DFrame α → ℚ) (fCdf : ℚ → ℤ → ℤ → ℚ) : FTestResult :=
  let cols := [yVar] ++ xVars ++ [entityCol, timeCol]
  let dfClean := drop_singletons_func (selectDropna df cols) entityCol
  let rssPooled := rssPooledOf dfClean
  let rssFe := rssFeOf dfClean
  let nEntities := nuniqueCol dfClean entityCol
  let nObs := dfClean.rows.length
  let kVars := xVars.length
  let d1 : ℤ := (nEntities : ℤ) - 1
  let d2 : ℤ := (nObs : ℤ) - (nEntities : ℤ) - (kVars : ℤ)
  let fStat := ((rssPooled - rssFe) / (d1 : ℚ)) / (rssFe / (d2 : ℚ))
  let pValue := 1 - fCdf fStat d1 d2
  { fStatistic := roundTo decimals fStat
    df1 := d1
    df2 := d2
    pValue := roundTo decimals pValue
    rssPooled := roundTo decimals rssPooled
    rssFe := roundTo decimals rssFe
    nEntities := nEntities
    nObs := nObs }

/-- The ingredients of the three internal fits of `ModelTests.hausman_test`,
restricted to the common coefficient list (of length `k`): the FE and RE
coefficient vectors, the three unadjusted covariance blocks, and the residual
sums of squares / residual degrees of freedom used by the `sigmamore` branch.
All are outputs of external `linearmodels` fits, hence oracle data. -/
structure HausmanFits (k : ℕ) where
  betaFe : Fin k → ℚ
  betaRe : Fin k → ℚ
  covFe : Fin k → Fin k → ℚ
  covRe : Fin k → Fin k → ℚ
  covPooled : Fin k → Fin k → ℚ
  rssFe : ℚ
  dfResidFe : ℚ
  rssPooled : ℚ
  dfResidPooled : ℚ

/-- The `sigmamore` scaling factor of `ModelTests.hausman_test`
(src/core/models.py, lines 1499-1508): the code computes
`s2_fe = sqrt(fe.resid_ss / fe.df_resid)`,
`s2_re = sqrt(pooled.resid_ss / pooled.df_resid)` and scales by
`(s2_re / s2_fe) ** 2`.  Squaring the ratio of the square roots of the two
nonnegative residual quotients gives the ratio of the quotients themselves
(theorem `hausmanScalingFactor_eq_sq_sqrt` below), so the factor is
represented directly as that ratio of residual variances. -/
def hausmanScalingFactor (rssFe dfFe rssPooled dfPooled : ℚ) : ℚ :=
  (rssPooled / dfPooled) / (rssFe / dfFe)

/-- The scaling factor that the specification sentence prescribes, read
literally: the square `(σ̂²_RE / σ̂²_FE)²` of the ratio of the two residual
variances `σ̂²_RE = rssPooled/dfPooled` and `σ̂²_FE = rssFe/dfFe`. -/
def claimScalingFactor (rssFe dfFe rssPooled dfPooled : ℚ) : ℚ :=
  ((rssPooled / dfPooled) / (rssFe / dfFe)) ^ 2

/-- The covariance-selection block of `ModelTests.hausman_test`
(src/core/models.py, lines 1488-1518): with `sigmamore` the FE covariance
block is scaled by the factor above and the RE side is replaced by the
pooled fit covariance; without it, each model keeps its own unadjusted
covariance.  Returns the pair `(cov_fe, cov_re)` used by the statistic. -/
def hausmanCovChoice (k : ℕ) (fits : HausmanFits k) (sigmamore : Bool) :
    (Fin k → Fin k → ℚ) × (Fin k → Fin k → ℚ) :=
  if sigmamore then
    (fun i j =>
        hausmanScalingFactor fits.rssFe fits.dfResidFe fits.rssPooled fits.dfResidPooled *
          fits.covFe i j,
      fits.covPooled)
  else (fits.covFe, fits.covRe)

/-- One displayed entry of the `std_err_diff` dictionary of
`ModelTests.hausman_test` (src/core/models.py, lines 1534-1541 and
1580-1587): for a positive diagonal entry of the covariance difference the
code displays its (rounded) square root, modelled by the `sqrtOf` constructor
carrying the variance itself; otherwise the literal string `negative`. -/
inductive StdErrDiffCell where
  | sqrtOf (variance : ℚ)
  | negative
deriving DecidableEq

/-- The `std_err_diff` map of `ModelTests.hausman_test`, one cell per common
coefficient, from the diagonal of the covariance difference. -/
def std_err_diff_of (k : ℕ) (covDiff : Fin k → Fin k → ℚ) : Fin k → StdErrDiffCell :=
  fun i => if 0 < covDiff i i then .sqrtOf (covDiff i i) else .negative

/-- The Hausman statistic `beta_diff.T @ cov_diff_inv @ beta_diff`
(src/core/models.py, line 1530), with `cov_diff_inv` the Moore-Penrose
pseudoinverse `np.linalg.pinv(cov_diff)` supplied by the caller. -/
def hausmanStatistic (k : ℕ) (betaDiff : Fin k → ℚ) (covDiffInv : Fin k → Fin k → ℚ) : ℚ :=
  ∑ i, ∑ j, betaDiff i * covDiffInv i j * betaDiff j

/-- The three-tier significance stars shared by both specification tests
(src/core/models.py, lines 1405-1416 and 1567-1578). -/
def significanceStars (p : ℚ) : String :=
  if p < 1/100 then "***" else if p < 5/100 then "**" else if p < 1/10 then "*" else ""

/-- Result of `ModelTests.hausman_test`: either the distinct
"not positive definite" dictionary returned when the statistic is negative
(lines 1543-1558: absolute statistic, degrees of freedom, both rounded
coefficient vectors, their difference, the `std_err_diff` cells — and no
numeric p-value field at all, the code putting the literal string `N/A`
there), or the standard dictionary with statistic, p-value and stars
(lines 1589-1604).  The purely decorative `fe_std_err` / `re_std_err`
display maps (square roots of the covariance diagonals) are omitted. -/
inductive HausmanOutcome (k : ℕ) where
  | notPositiveDefinite (chi2Statistic : ℚ) (dfDeg : ℕ)
      (feCoeffs reCoeffs coeffDiff : Fin k → ℚ) (stdErrDiff : Fin k → StdErrDiffCell)
  | standard (chi2Statistic : ℚ) (dfDeg : ℕ) (pValue : ℚ) (significance : String)
      (feCoeffs reCoeffs coeffDiff : Fin k → ℚ) (stdErrDiff : Fin k → StdErrDiffCell)

/-- The statistic/branch block of `ModelTests.hausman_test`
(src/core/models.py, lines 1520-1604), for an already-chosen covariance pair:
form the coefficient and covariance differences, evaluate the statistic
through the pseudoinverse oracle `pinv` (modelling `np.linalg.pinv`), and
branch on its sign.  `chi2Cdf q d` is the oracle for
`scipy.stats.chi2.cdf(q, d)`. -/
def hausman_decision (k : ℕ) (decimals : ℕ) (betaFe betaRe : Fin k → ℚ)
    (covFe covRe : Fin k → Fin k → ℚ)
    (pinv : (Fin k → Fin k → ℚ) → Fin k → Fin k → ℚ)
    (chi2Cdf : ℚ → ℕ → ℚ) : HausmanOutcome k :=
  let betaDiff := fun i => betaFe i - betaRe i
  let covDiff := fun i j => covFe i j - covRe i j
  let h := hausmanStatistic k betaDiff (pinv covDiff)
  if h < 0 then
    .notPositiveDefinite (roundTo decimals |h|) k
      (fun i => roundTo decimals (betaFe i)) (fun i => roundTo decimals (betaRe i))
      (fun i => roundTo decimals (betaDiff i)) (std_err_diff_of k covDiff)
  else
    let p := 1 - chi2Cdf h k
    .standard (roundTo decimals h) k (roundTo decimals p) (significanceStars p)
      (fun i => roundTo decimals (betaFe i)) (fun i => roundTo decimals (betaRe i))
      (fun i => roundTo decimals (betaDiff i)) (std_err_diff_of k covDiff)

/-- `ModelTests.hausman_test` after its three internal fits: covariance
selection followed by the statistic/branch block. -/
def hausman_test (k : ℕ) (decimals : ℕ) (fits : HausmanFits k) (sigmamore : Bool)
    (pinv : (Fin k → Fin k → ℚ) → Fin k → Fin k → ℚ)
    (chi2Cdf : ℚ → ℕ → ℚ) : HausmanOutcome k :=
  let covs := hausmanCovChoice k fits sigmamore
  hausman_decision k decimals fits.betaFe fits.betaRe covs.1 covs.2 pinv chi2Cdf

/-! ## Correlation analysis (`StataModel._fit_correlation`) -/

/-- The diagonal of `df.corr()` (pandas Pearson correlation) on the
exact-rational model: the cell `(i, i)` is `cov(x, x) / sqrt(ssqd·ssqd)`,
which is `1` when the column has a nonzero centered sum of squares, and NaN
(`none`) when that sum is zero — pandas yields NaN whenever the divisor of
the Pearson quotient vanishes, including for a constant column. -/
def pearsonSelf (xs : List ℚ) : Option ℚ :=
  if ssqd xs = 0 then none else some (ssqd xs / ssqd xs)

/-- Python fixed-point formatting of a possibly-NaN value: `f"{nan:.{d}f}"`
renders as the string `nan`. -/
def formatOptFixed (d : ℕ) (v : Option ℚ) : String :=
  match v with
  | none => "nan"
  | some q => formatFixed d q

/-- The correlation matrix of the cleaned data, as `StataModel._fit_correlation`
obtains it from `df.corr()` (src/core/models.py, line 427): the diagonal is
determined by the Pearson formula on the columns themselves; the off-diagonal
numeric values are external library output, supplied as the oracle
`offDiag`. -/
def corrMatrixOf (colsData : List (List ℚ)) (offDiag : ℕ → ℕ → Option ℚ) :
    ℕ → ℕ → Option ℚ :=
  fun i j => if i = j then pearsonSelf (colsData.getD i []) else offDiag i j

/-- The formatted string matrix that `StataModel._fit_correlation` builds
(src/core/models.py, lines 439-455): each cell is the correlation value
formatted to `d` decimals, with the three-tier significance stars appended
for off-diagonal cells only (the code skips stars when `i == j`); the
p-values of the off-diagonal `scipy.stats.pearsonr` calls enter as the oracle
`p`. -/
def fitCorrelationMatrix (d : ℕ) (colsData : List (List ℚ))
    (offDiag : ℕ → ℕ → Option ℚ) (p : ℕ → ℕ → ℚ) : ℕ → ℕ → String :=
  fun i j =>
    formatOptFixed d (corrMatrixOf colsData offDiag i j) ++
      (if i = j then "" else significanceStars (p i j))

/-! ## VIF analysis (`StataModel._fit_vif`) -/

/-- Outcome of one `variance_inflation_factor(X.values, i)` call
(src/core/models.py, lines 481-501): a finite value (`np.isinf` false), an
infinite value, or a raised exception (caught by the code). -/
inductive VifOutcome where
  | fin (v : ℚ)
  | infVal
  | err
deriving DecidableEq

/-- One displayed row of the VIF table: variable name, `VIF` cell, `1/VIF`
(tolerance) cell. -/
structure VifRow where
  varName : String
  vif : String
  tol : String
deriving DecidableEq

/-- The row `StataModel._fit_vif` builds for one variable
(src/core/models.py, lines 481-501): an infinite VIF displays as the literal
`Inf` with tolerance literal `0.000` (not formatted with `decimals`); a
finite VIF displays formatted with its reciprocal as tolerance; an exception
displays as `Error` / `-`. -/
def vifRowOf (d : ℕ) (name : String) (out : VifOutcome) : VifRow :=
  match out with
  | .infVal => ⟨name, "Inf", "0.000"⟩
  | .fin v => ⟨name, formatFixed d v, formatFixed d (1 / v)⟩
  | .err => ⟨name, "Error", "-"⟩

/-- The `vif_values` list accumulated by `StataModel._fit_vif`: exactly the
finite VIF values, in order — infinite and erroring variables are never
appended (lines 483-489). -/
def finiteVifs (cols : List (String × VifOutcome)) : List ℚ :=
  cols.filterMap (fun c =>
    match c.2 with
    | .fin v => some v
    | _ => none)

/-- `StataModel._fit_vif` (src/core/models.py, lines 463-514) on the cleaned
columns (excluding the appended constant, which the loop skips): one row per
variable, followed — whenever at least one finite VIF was collected — by a
trailing `Mean VIF` row averaging only the finite values. -/
def fit_vif (d : ℕ) (cols : List (String × VifOutcome)) : List VifRow :=
  let rows := cols.map (fun c => vifRowOf d c.1 c.2)
  let vs := finiteVifs cols
  if vs = [] then rows
  else rows ++ [⟨"Mean VIF", formatFixed d (listMean vs), "."⟩]

/-! ## Merged result table (`src/core/table_generator.py`, `generate_merged_html`)

The HTML fragments reproduce the text of the Python template literals; the
purely cosmetic indentation and line breaks inside the triple-quoted
templates are not replicated character-for-character. -/

/-- One element of `models_data`: the per-model input of
`generate_merged_html`.  `coeffs` is the ordered coefficient dictionary
`variable ↦ (coefficient cell, SE/t cell)`; `stats` the ordered statistic
dictionary; `customRows` the ordered list of `{label, value}` rows. -/
structure FitColumn where
  coeffs : List (String × String × String)
  stats : List (String × ℚ)
  yName : String
  method : String
  seType : String
  customRows : List (String × String)
deriving DecidableEq

/-- One step of the variable-collection loop of `generate_merged_html`
(src/core/table_generator.py, lines 82-88), acting on the accumulator
`(all_vars, has_constant)` for a single variable name: `Constant` only sets
the flag; any other unseen name is appended. -/
def nameFoldF (acc : List String × Bool) (v : String) : List String × Bool :=
  if v = "Constant" then (acc.1, true)
  else if v ∈ acc.1 then acc
  else (acc.1 ++ [v], acc.2)

/-- The inner loop over one model of the variable collection. -/
def collectVarsStep (acc : List String × Bool) (m : FitColumn) : List String × Bool :=
  m.coeffs.foldl (fun a c => nameFoldF a c.1) acc

/-- `all_vars` as built by `generate_merged_html` (lines 79-92): the loop
above over all models, then `Constant` appended last when the flag is set. -/
def allVarsOf (ms : List FitColumn) : List String :=
  let acc := ms.foldl collectVarsStep ([], false)
  if acc.2 then acc.1 ++ ["Constant"] else acc.1

/-- Deduplicate a list keeping the first occurrence of each element,
appending unseen elements to the accumulator `acc`. -/
def firstSeenFrom (acc : List String) (l : List String) : List String :=
  l.foldl (fun a v => if v ∈ a then a else a ++ [v]) acc

/-- The variable order the specification describes: the union of all models
variable names in first-seen order, with the constant term — if present in
any model — forced to the last position. -/
def specVarOrder (ms : List FitColumn) : List String :=
  let names := (ms.map (fun m => m.coeffs.map Prod.fst)).flatten
  firstSeenFrom [] (names.filter (fun v => v ≠ "Constant")) ++
    (if "Constant" ∈ names then ["Constant"] else [])

/-- The cell pair `m["coeffs"].get(var, ("", ""))` (lines 124 and 131): the
model's coefficient/SE cells for `var`, or a pair of empty cells when the
model lacks the variable. -/
def coeffCellOf (m : FitColumn) (v : String) : String × String :=
  (m.coeffs.lookup v).getD ("", "")

/-- The coefficient-row section (lines 120-133) in structured form: one entry
per variable of `all_vars`, carrying the variable label, the coefficient
cells of all models, and the paired SE/t cells of all models; the renderer
emits exactly one coefficient `<tr>` and one SE/t `<tr>` per entry. -/
def varRowsOf (ms : List FitColumn) : List (String × List String × List String) :=
  (allVarsOf ms).map (fun v =>
    (v, ms.map (fun m => (coeffCellOf m v).1), ms.map (fun m => (coeffCellOf m v).2)))

/-- `stats_map` (lines 140-149): export option ↦ (row label, stats key). -/
def statsMap : List (String × String × String) :=
  [("nobs", "Observations", "N"),
   ("r2", "R-squared", "R2"),
   ("adj_r2", "Adj. R-squared", "Adj-R2"),
   ("f_stat", "F-statistic", "F"),
   ("pseudo_r2", "Pseudo R2", "Pseudo-R2"),
   ("aic", "AIC", "AIC"),
   ("bic", "BIC", "BIC"),
   ("ll", "Log Likelihood", "LL")]

/-- Lines 152-154: `export_options.remove("nobs"); export_options.insert(0,
"nobs")` — performed in place on the caller's list when `nobs` is present,
i.e. the first occurrence is removed and re-inserted at index 0. -/
def moveNobsFront (opts : List String) : List String :=
  if "nobs" ∈ opts then "nobs" :: opts.erase "nobs" else opts

/-- One statistic cell (lines 165-174): absent key ↦ empty cell; the `N` key
is displayed as a Python `int`, every other numeric value is fixed-point
formatted with `decimals` digits. -/
def statCellOf (d : ℕ) (m : FitColumn) (key : String) : String :=
  match m.stats.lookup key with
  | none => ""
  | some q => if key = "N" then formatInt (intTrunc q) else formatFixed d q

/-- The statistic-row section (lines 156-186) in structured form, for an
already-reordered option list: unknown options are skipped, options whose
key no model carries are skipped (`has_value` false), and each remaining
option yields the row label and all models cells. -/
def statRowsOf (d : ℕ) (ms : List FitColumn) (opts : List String) :
    List (String × List String) :=
  opts.filterMap (fun opt =>
    match statsMap.lookup opt with
    | none => none
    | some lk =>
      if ms.all (fun m => (m.stats.lookup lk.2).isNone) then none
      else some (lk.1, ms.map (fun m => statCellOf d m lk.2)))

/-- The custom-row labels in first-seen order over all models
(lines 192-196). -/
def customLabelsOf (ms : List FitColumn) : List String :=
  ms.foldl
    (fun acc m => m.customRows.foldl (fun a r => if r.1 ∈ a then a else a ++ [r.1]) acc) []

/-- One custom-row cell (lines 203-207): the first value the model supplies
for the label, defaulting to the literal `No`. -/
def customCellOf (m : FitColumn) (label : String) : String :=
  (m.customRows.lookup label).getD "No"

/-- The custom-row section (lines 199-209) in structured form. -/
def customRowsOf (ms : List FitColumn) : List (String × List String) :=
  (customLabelsOf ms).map (fun l => (l, ms.map (fun m => customCellOf m l)))

/-- The footer note lines (lines 214-226): the SE-vs-t sentence, then the
clustering sentence when any model used clustered standard errors. -/
def noteLinesOf (ms : List FitColumn) (showSe : Bool) : List String :=
  (if showSe then ["Standard errors in parentheses"] else ["t-statistics in parentheses"]) ++
    (if ms.any (fun m => m.seType = "cluster") then ["Standard errors are clustered."] else [])

/-- One header cell (lines 107-113): `(i+1)`, the dependent variable name,
and the upper-cased method. -/
def headerCellOf (i : ℕ) (m : FitColumn) : String :=
  "<th style=\x27border-bottom: 1px solid black;\x27>(" ++ toString (i + 1) ++ ")<br>" ++
    m.yName ++ "<br><span style=\x27font-size:0.8em; font-weight:normal\x27>(" ++
    m.method.toUpper ++ ")</span></th>"

/-- The opening of the table (lines 97-115): container, editable title input,
table element, header row. -/
def tableHeadHtml (title : String) (ms : List FitColumn) : String :=
  "<div class=\"table-editable-container\"><input type=\"text\" class=\"table-title-input\" value=\"" ++
    title ++
    "\" /><table class=\"academic-table\" style=\"line-height: 1.1;\"><thead><tr><th style=\"border-bottom: 1px solid black; text-align: left;\">Variables</th>" ++
    String.join (ms.enum.map (fun p => headerCellOf p.1 p.2)) ++ "</tr></thead><tbody>"

/-- The rendered coefficient/SE rows (lines 120-133). -/
def varRowsHtml (ms : List FitColumn) : String :=
  String.join ((varRowsOf ms).map (fun r =>
    "<tr><td style=\x27text-align:left;\x27>" ++ r.1 ++ "</td>" ++
      String.join (r.2.1.map (fun c => "<td>" ++ c ++ "</td>")) ++ "</tr><tr><td></td>" ++
      String.join (r.2.2.map (fun c =>
        "<td style=\x27color: #666; font-size: 0.85em; padding-bottom: 4px;\x27>" ++ c ++
          "</td>")) ++ "</tr>"))

/-- One rendered statistic row; the first emitted statistic row carries the
`border-top` style (lines 180-185). -/
def statRowHtml (border : Bool) (row : String × List String) : String :=
  let bs := if border then "border-top: 1px solid black;" else ""
  "<tr><td style=\x27text-align:left; " ++ bs ++ "\x27>" ++ row.1 ++ "</td>" ++
    String.join (row.2.map (fun c => "<td style=\x27" ++ bs ++ "\x27>" ++ c ++ "</td>")) ++
    "</tr>"

/-- The rendered statistic section (`first_stat` flag of lines 156-186). -/
def statRowsHtml (rows : List (String × List String)) : String :=
  match rows with
  | [] => ""
  | r :: rest => statRowHtml true r ++ String.join (rest.map (statRowHtml false))

/-- The rendered custom-row section (lines 199-209). -/
def customRowsHtml (rows : List (String × List String)) : String :=
  String.join (rows.map (fun r =>
    "<tr><td style=\x27text-align:left;\x27>" ++ r.1 ++ "</td>" ++
      String.join (r.2.map (fun c => "<td>" ++ c ++ "</td>")) ++ "</tr>"))

/-- The rendered footer (lines 214-237): joined note lines and the
significance legend, then the closing tags. -/
def footerHtml (ms : List FitColumn) (showSe : Bool) : String :=
  "<tr><td colspan=\"100%\" style=\"border-bottom: 3px double black; border-top: 1px solid black; font-size: 0.8em; text-align: left; padding-top: 5px;\">" ++
    String.intercalate "<br>" (noteLinesOf ms showSe) ++
    "<br>*** p<0.01, ** p<0.05, * p<0.1</td></tr></tfoot></table></div>"

/-- `generate_merged_html` (src/core/table_generator.py, lines 32-239).
The first component is the returned HTML string; the second component is the
caller-visible final state of the `export_options` argument (`none` when the
caller passed `None`), since lines 152-154 mutate that list in place.  The
empty `models_data` check (lines 69-70) precedes both the default-option
substitution and the mutation. -/
def generate_merged_html (ms : List FitColumn) (title : String) (d : ℕ) (showSe : Bool)
    (exportOptions : Option (List String)) : String × Option (List String) :=
  if ms = [] then ("", exportOptions)
  else
    let opts0 := exportOptions.getD ["nobs", "r2", "adj_r2", "f_stat"]
    let opts1 := moveNobsFront opts0
    let html :=
      tableHeadHtml title ms ++ varRowsHtml ms ++ "</tbody><tfoot>" ++
        statRowsHtml (statRowsOf d ms opts1) ++ customRowsHtml (customRowsOf ms) ++
        footerHtml ms showSe
    (html, exportOptions.map (fun _ => opts1))

/-! ## Concrete instances used by counterexamples and witnesses -/

/-- A one-row frame whose only column is named by the empty string. -/
def dfEmptyName : DFrame ℚ := ⟨[""], [fun _ => some 0]⟩

/-- A three-row panel frame with entities `1, 1, 2` in column `id`. -/
def dfPanelEx : DFrame ℚ := ⟨["id"], [fun _ => some 1, fun _ => some 1, fun _ => some 2]⟩

/-- Concrete Hausman fit data with one common coefficient:
`rss_fe/df_fe = 1`, `rss_pooled/df_pooled = 2`, FE covariance entry `1`. -/
def exHausmanFits : HausmanFits 1 :=
  ⟨fun _ => 1, fun _ => 0, fun _ _ => 1, fun _ _ => 0, fun _ _ => 0, 1, 1, 2, 1⟩

/-- A fit column with a single variable `x1`. -/
def cmA : FitColumn :=
  ⟨[("x1", "0.500**", "(0.200)")], [("N", 30)], "y", "ols", "robust", [("Entity FE", "Yes")]⟩

/-- A second fit column adding a variable `x2` and an `R2` statistic. -/
def cmB : FitColumn :=
  ⟨[("x1", "0.400*", "(0.210)"), ("x2", "1.000", "(0.900)")], [("N", 28), ("R2", 1/2)],
    "y", "fe", "cluster", []⟩

/-- Concrete Hausman fit data whose covariance difference is negative:
identical variances, `cov_fe = 0`, `cov_re = 1`, coefficient difference 1. -/
def exNpdFits : HausmanFits 1 :=
  ⟨fun _ => 1, fun _ => 0, fun _ _ => 0, fun _ _ => 1, fun _ _ => 1, 1, 1, 1, 1⟩

/-- Concrete VIF outcomes: two perfectly collinear variables (infinite VIF)
and one finite one. -/
def exVifCols : List (String × VifOutcome) :=
  [("x1", .infVal), ("x2", .infVal), ("x3", .fin 2)]

/-! ## Helper lemmas -/

/-- A kept row's predicate, spelled out. -/
theorem singletonKeep_iff [DecidableEq α] (df : DFrame α) (c : String)
    (r : String → Option α) :
    singletonKeep df c r = true ↔ ∃ v, r c = some v ∧ 1 < entityCount df c v := by
  unfold singletonKeep
  cases h : r c <;> simp

/-- With a usable entity column, `drop_singletons_func` is the row filter. -/
theorem drop_singletons_eq_filter [DecidableEq α] (df : DFrame α) (c : String)
    (hne : c ≠ "") (hmem : c ∈ df.cols) :
    drop_singletons_func df c = { df with rows := df.rows.filter (singletonKeep df c) } := by
  unfold drop_singletons_func
  rw [if_neg]
  simp [hne, hmem]

/-! ## C4 — singleton removal -/

/-- C4, counterexample to the claim as stated: the empty string is a column
of `dfEmptyName` and its single row's entity group has exactly one row, yet
`drop_singletons_func` does not drop that row (Python treats the empty column
name as falsy and returns the frame unchanged). -/
theorem c4_counterexample :
    "" ∈ dfEmptyName.cols ∧
    entityCount dfEmptyName "" 0 = 1 ∧
    (drop_singletons_func dfEmptyName "").rows.length = 1 := by
  refine ⟨by decide, by decide, by decide⟩

/-- C4, amended: for every frame and every non-empty entity-column name
present in the frame, `drop_singletons_func` returns a row-subsequence of its
input in which every remaining entity value occurs at least twice, and it
drops exactly the rows whose entity value is missing or whose entity group
has exactly one row. -/
theorem c4_amended [DecidableEq α] (df : DFrame α) (c : String)
    (hne : c ≠ "") (hmem : c ∈ df.cols) :
    (drop_singletons_func df c).rows.Sublist df.rows ∧
    (∀ r ∈ (drop_singletons_func df c).rows, ∀ v, r c = some v →
      1 < entityCount (drop_singletons_func df c) c v) ∧
    (∀ r, r ∈ (drop_singletons_func df c).rows ↔
      r ∈ df.rows ∧ ∃ v, r c = some v ∧ 1 < entityCount df c v) := by
  rw [drop_singletons_eq_filter df c hne hmem]
  refine ⟨List.filter_sublist _, ?_, ?_⟩
  · intro r hr v hv
    have hr' := List.mem_filter.1 hr
    rcases (singletonKeep_iff df c r).1 hr'.2 with ⟨w, hw, hcount⟩
    rw [hv] at hw
    obtain rfl : v = w := by injection hw
    have hsame : (df.rows.filter (singletonKeep df c)).filter
        (fun r => r c = some v) = df.rows.filter (fun r => r c = some v) := by
      rw [List.filter_filter]
      refine List.filter_congr ?_
      intro x _
      by_cases hx : x c = some v
      · have : singletonKeep df c x = true := (singletonKeep_iff df c x).2 ⟨v, hx, hcount⟩
        simp [hx, this]
      · simp [hx]
    show 1 < ((df.rows.filter (singletonKeep df c)).filter (fun r => r c = some v)).length
    rw [hsame]
    exact hcount
  · intro r
    rw [List.mem_filter, singletonKeep_iff]

/-- C4 witness: the amended theorem applied to the concrete panel frame
`dfPanelEx` over its entity column `id`. -/
theorem c4_amended_witness :
    (drop_singletons_func dfPanelEx "id").rows.Sublist dfPanelEx.rows :=
  (c4_amended dfPanelEx "id" (by decide) (by decide)).1

/-! ## C3 — F-test of FE vs Pooled OLS -/

/-- C3: `f_test_fe_vs_pooled` fits Pooled OLS and FE on the same
missing-row-removed, singleton-dropped data `clean`, sets
`df1 = (#entities) - 1` and `df2 = #observations - #entities - #regressors`,
computes `F = ((RSS_pooled - RSS_FE)/df1) / (RSS_FE/df2)` and the p-value as
the right tail `1 - cdf_F(F, df1, df2)` of the F distribution (all numeric
outputs rounded to the requested decimals, as the code does). -/
theorem c3_f_test_formula [DecidableEq α] (df : DFrame α) (yVar : String)
    (xVars : List String) (entityCol timeCol : String) (decimals : ℕ)
    (rssPooledOf rssFeOf : DFrame α → ℚ) (fCdf : ℚ → ℤ → ℤ → ℚ) :
    let clean :=
      drop_singletons_func (selectDropna df ([yVar] ++ xVars ++ [entityCol, timeCol])) entityCol
    let res := f_test_fe_vs_pooled df yVar xVars entityCol timeCol decimals
      rssPooledOf rssFeOf fCdf
    let fStat := ((rssPooledOf clean - rssFeOf clean) / (((nuniqueCol clean entityCol : ℤ) - 1 : ℤ) : ℚ)) /
      (rssFeOf clean / (((clean.rows.length : ℤ) - (nuniqueCol clean entityCol : ℤ) - (xVars.length : ℤ) : ℤ) : ℚ))
    res.df1 = (nuniqueCol clean entityCol : ℤ) - 1 ∧
    res.df2 = (clean.rows.length : ℤ) - (nuniqueCol clean entityCol : ℤ) - (xVars.length : ℤ) ∧
    res.rssPooled = roundTo decimals (rssPooledOf clean) ∧
    res.rssFe = roundTo decimals (rssFeOf clean) ∧
    res.nEntities = nuniqueCol clean entityCol ∧
    res.nObs = clean.rows.length ∧
    res.fStatistic = roundTo decimals fStat ∧
    res.pValue = roundTo decimals (1 - fCdf fStat res.df1 res.df2) :=
  ⟨rfl, rfl, rfl, rfl, rfl, rfl, rfl, rfl⟩

/-! ## C1 — the `sigmamore` covariance policy of the Hausman test -/

/-- Justification that `hausmanScalingFactor` is the code's
`(s2_re / s2_fe) ** 2` with `s2 = sqrt(rss/df)`: over the reals, the square
of the ratio of the square roots of the two nonnegative residual quotients
is the ratio of the quotients. -/
theorem hausmanScalingFactor_eq_sq_sqrt (rssFe dfFe rssPooled dfPooled : ℚ)
    (h1 : (0 : ℝ) ≤ (rssFe : ℝ) / (dfFe : ℝ))
    (h2 : (0 : ℝ) ≤ (rssPooled : ℝ) / (dfPooled : ℝ)) :
    (Real.sqrt ((rssPooled : ℝ) / (dfPooled : ℝ)) /
        Real.sqrt ((rssFe : ℝ) / (dfFe : ℝ))) ^ 2 =
      ((hausmanScalingFactor rssFe dfFe rssPooled dfPooled : ℚ) : ℝ) := by
  rw [div_pow, Real.sq_sqrt h2, Real.sq_sqrt h1, hausmanScalingFactor]
  push_cast
  ring

/-- C1, counterexample to the claim as stated: at the concrete fit data
`exHausmanFits` (residual variances 1 for FE and 2 for pooled), the FE
covariance entry produced by the `sigmamore` branch is `2 · cov_fe`, not the
`(σ̂²_RE/σ̂²_FE)² · cov_fe = 4 · cov_fe` the claim prescribes. -/
theorem c1_counterexample :
    (hausmanCovChoice 1 exHausmanFits true).1 0 0 ≠
      claimScalingFactor exHausmanFits.rssFe exHausmanFits.dfResidFe
        exHausmanFits.rssPooled exHausmanFits.dfResidPooled * exHausmanFits.covFe 0 0 := by
  simp only [hausmanCovChoice, exHausmanFits, hausmanScalingFactor, claimScalingFactor,
    if_true]
  norm_num

/-- C1, amended: with `sigmamore` enabled the FE covariance block is rescaled
by `σ̂²_RE / σ̂²_FE` — the plain ratio of the residual variances, i.e. the
square of the ratio of residual standard deviations — with `σ̂²_RE` taken
from the Pooled-OLS fit (whose covariance also replaces the RE-side block);
with `sigmamore` off, each model's own unadjusted covariance matrix is used
unmodified (the RE model's covariance in that case, not the pooled one's). -/
theorem c1_amended (k : ℕ) (fits : HausmanFits k) :
    hausmanCovChoice k fits true =
      (fun i j => (fits.rssPooled / fits.dfResidPooled) / (fits.rssFe / fits.dfResidFe) *
          fits.covFe i j,
        fits.covPooled) ∧
    hausmanCovChoice k fits false = (fits.covFe, fits.covRe) :=
  ⟨rfl, rfl⟩

/-! ## C2 — the non-positive-definite branch of the Hausman test -/

/-- C2: whenever the Hausman statistic computed through the Moore–Penrose
pseudoinverse of the covariance difference is negative, `hausman_test`
returns the distinct non-positive-definite variant carrying the absolute
value of the statistic, the degrees of freedom, both (rounded) coefficient
vectors, their difference, and the per-coefficient standard-error-difference
cells — a variant with no numeric p-value field; it neither raises nor
produces a spurious p-value. -/
theorem c2_hausman_npd (k decimals : ℕ) (fits : HausmanFits k) (sigmamore : Bool)
    (pinv : (Fin k → Fin k → ℚ) → Fin k → Fin k → ℚ) (chi2Cdf : ℚ → ℕ → ℚ)
    (hneg : hausmanStatistic k (fun i => fits.betaFe i - fits.betaRe i)
      (pinv (fun i j => (hausmanCovChoice k fits sigmamore).1 i j -
        (hausmanCovChoice k fits sigmamore).2 i j)) < 0) :
    hausman_test k decimals fits sigmamore pinv chi2Cdf =
      .notPositiveDefinite
        (roundTo decimals |hausmanStatistic k (fun i => fits.betaFe i - fits.betaRe i)
          (pinv (fun i j => (hausmanCovChoice k fits sigmamore).1 i j -
            (hausmanCovChoice k fits sigmamore).2 i j))|)
        k
        (fun i => roundTo decimals (fits.betaFe i))
        (fun i => roundTo decimals (fits.betaRe i))
        (fun i => roundTo decimals (fits.betaFe i - fits.betaRe i))
        (std_err_diff_of k (fun i j => (hausmanCovChoice k fits sigmamore).1 i j -
          (hausmanCovChoice k fits sigmamore).2 i j)) := by
  unfold hausman_test hausman_decision
  rw [if_pos hneg]

/-- C2 witness: the theorem applied to `exNpdFits` (statistic −1) with the
identity pseudoinverse oracle. -/
theorem c2_hausman_npd_witness :
    hausman_test 1 4 exNpdFits false (fun m => m) (fun _ _ => 0) =
      .notPositiveDefinite
        (roundTo 4 |hausmanStatistic 1 (fun i => exNpdFits.betaFe i - exNpdFits.betaRe i)
          ((fun m => m) (fun i j => (hausmanCovChoice 1 exNpdFits false).1 i j -
            (hausmanCovChoice 1 exNpdFits false).2 i j))|)
        1
        (fun i => roundTo 4 (exNpdFits.betaFe i))
        (fun i => roundTo 4 (exNpdFits.betaRe i))
        (fun i => roundTo 4 (exNpdFits.betaFe i - exNpdFits.betaRe i))
        (std_err_diff_of 1 (fun i j => (hausmanCovChoice 1 exNpdFits false).1 i j -
          (hausmanCovChoice 1 exNpdFits false).2 i j)) :=
  c2_hausman_npd 1 4 exNpdFits false (fun m => m) (fun _ _ => 0) (by
    simp only [hausmanStatistic, exNpdFits, hausmanCovChoice, Fin.sum_univ_one]
    norm_num)

/-! ## C7 — correlation matrix diagonal -/

/-- C7, counterexample to the claim as stated: on the single constant column
`[1, 1]` (which survives the numeric-selection/dropna cleaning, so the
correlation analysis runs), the diagonal cell is the string `nan` — pandas
yields NaN when the Pearson divisor vanishes — not `1.000`. -/
theorem c7_counterexample :
    fitCorrelationMatrix 3 [[1, 1]] (fun _ _ => none) (fun _ _ => 1) 0 0 = "nan" ∧
    fitCorrelationMatrix 3 [[1, 1]] (fun _ _ => none) (fun _ _ => 1) 0 0 ≠ "1.000" := by
  have h : fitCorrelationMatrix 3 [[1, 1]] (fun _ _ => none) (fun _ _ => 1) 0 0 = "nan" := by
    simp only [fitCorrelationMatrix, corrMatrixOf, pearsonSelf, ssqd, listMean]
    norm_num [formatOptFixed]
  exact ⟨h, by rw [h]; decide⟩

/-- C7, amended: a diagonal cell of the formatted correlation matrix is
exactly 1 at the chosen number of decimals and carries no significance star
whenever its column has nonzero centered sum of squares; a zero-variance
column's diagonal cell is the plain string `nan` (still with no star); and
exactly the off-diagonal cells carry the significance stars derived from
their p-values. -/
theorem c7_amended (d : ℕ) (colsData : List (List ℚ)) (offDiag : ℕ → ℕ → Option ℚ)
    (p : ℕ → ℕ → ℚ) :
    (∀ i, ssqd (colsData.getD i []) ≠ 0 →
      fitCorrelationMatrix d colsData offDiag p i i = formatFixed d 1) ∧
    (∀ i, ssqd (colsData.getD i []) = 0 →
      fitCorrelationMatrix d colsData offDiag p i i = "nan") ∧
    (∀ i j, i ≠ j → fitCorrelationMatrix d colsData offDiag p i j =
      formatOptFixed d (offDiag i j) ++ significanceStars (p i j)) := by
  refine ⟨?_, ?_, ?_⟩
  · intro i hi
    unfold fitCorrelationMatrix corrMatrixOf pearsonSelf
    rw [if_pos rfl, if_pos rfl, if_neg hi, div_self hi]
    simp [formatOptFixed]
  · intro i hi
    unfold fitCorrelationMatrix corrMatrixOf pearsonSelf
    rw [if_pos rfl, if_pos rfl, if_pos hi]
    simp [formatOptFixed]
  · intro i j hij
    simp [fitCorrelationMatrix, corrMatrixOf, hij]

/-- C7 witness: the nonzero-variance clause applied to the concrete column
`[1, 2]` at three decimals. -/
theorem c7_amended_witness :
    fitCorrelationMatrix 3 [[1, 2]] (fun _ _ => none) (fun _ _ => 1) 0 0 = formatFixed 3 1 :=
  (c7_amended 3 [[1, 2]] (fun _ _ => none) (fun _ _ => 1)).1 0 (by
    norm_num [ssqd, listMean])

/-! ## C8 — infinite VIF handling -/

/-- C8: a variable whose VIF is infinite is displayed as the literal `Inf`
with tolerance literal `0.000` (the code never raises there); appending an
infinite-VIF variable leaves the collected finite-VIF list — the Mean VIF
inputs — unchanged; and whenever at least one finite VIF exists the table is
the per-variable rows followed by a trailing `Mean VIF` row whose value
averages only the finite VIF values. -/
theorem c8_vif_inf (d : ℕ) (cols : List (String × VifOutcome)) :
    (∀ c ∈ cols, c.2 = VifOutcome.infVal →
      vifRowOf d c.1 c.2 = ⟨c.1, "Inf", "0.000"⟩) ∧
    (∀ name, finiteVifs (cols ++ [(name, VifOutcome.infVal)]) = finiteVifs cols) ∧
    (finiteVifs cols ≠ [] → fit_vif d cols =
      (cols.map fun c => vifRowOf d c.1 c.2) ++
        [⟨"Mean VIF", formatFixed d ((finiteVifs cols).sum / (finiteVifs cols).length), "."⟩]) := by
  refine ⟨?_, ?_, ?_⟩
  · intro c _ hc
    rw [hc]
    rfl
  · intro name
    simp [finiteVifs]
  · intro h
    simp only [fit_vif, listMean, if_neg h]

/-- C8 witness: the Mean-VIF clause at the concrete outcomes `exVifCols`
(two infinite VIFs and one finite VIF). -/
theorem c8_vif_inf_witness :
    fit_vif 3 exVifCols =
      (exVifCols.map fun c => vifRowOf 3 c.1 c.2) ++
        [⟨"Mean VIF", formatFixed 3 ((finiteVifs exVifCols).sum / (finiteVifs exVifCols).length), "."⟩] :=
  (c8_vif_inf 3 exVifCols).2.2 (by decide)

/-! ## Helper lemmas for the merged-table variable collection -/

/-- Unfolding `firstSeenFrom` one step. -/
theorem firstSeenFrom_cons (acc : List String) (v : String) (t : List String) :
    firstSeenFrom acc (v :: t) = firstSeenFrom (if v ∈ acc then acc else acc ++ [v]) t := rfl

/-- `firstSeenFrom` over a concatenation. -/
theorem firstSeenFrom_append (acc : List String) (l1 l2 : List String) :
    firstSeenFrom acc (l1 ++ l2) = firstSeenFrom (firstSeenFrom acc l1) l2 :=
  List.foldl_append _ _ _ _

/-- Membership in `firstSeenFrom`. -/
theorem mem_firstSeenFrom (x : String) (l acc : List String) :
    x ∈ firstSeenFrom acc l ↔ x ∈ acc ∨ x ∈ l := by
  induction l generalizing acc with
  | nil => simp [firstSeenFrom]
  | cons v t ih =>
    rw [firstSeenFrom_cons]
    by_cases hm : v ∈ acc
    · rw [if_pos hm, ih]
      constructor
      · rintro (h | h)
        · exact Or.inl h
        · exact Or.inr (List.mem_cons_of_mem _ h)
      · rintro (h | h)
        · exact Or.inl h
        · rcases List.mem_cons.1 h with rfl | h
          · exact Or.inl hm
          · exact Or.inr h
    · rw [if_neg hm, ih]
      simp only [List.mem_append, List.mem_singleton, List.mem_cons]
      tauto

/-- `firstSeenFrom` preserves freedom from duplicates. -/
theorem nodup_firstSeenFrom (l acc : List String) (h : acc.Nodup) :
    (firstSeenFrom acc l).Nodup := by
  induction l generalizing acc with
  | nil => exact h
  | cons v t ih =>
    rw [firstSeenFrom_cons]
    by_cases hm : v ∈ acc
    · rw [if_pos hm]
      exact ih acc h
    · rw [if_neg hm]
      refine ih _ ?_
      simp [List.nodup_append, h, hm]

/-- The variable-collection step on one name list, first component:
`Constant` is filtered out, every other unseen name is appended. -/
theorem nameFold_fst (l : List String) (vs : List String) (b : Bool) :
    (l.foldl nameFoldF (vs, b)).1 =
      firstSeenFrom vs (l.filter (fun v => v ≠ "Constant")) := by
  induction l generalizing vs b with
  | nil => rfl
  | cons v t ih =>
    by_cases hv : v = "Constant"
    · subst hv
      rw [List.foldl_cons]
      show (t.foldl nameFoldF (vs, true)).1 = _
      rw [ih]
      simp [List.filter_cons]
    · rw [List.foldl_cons, List.filter_cons]
      by_cases hm : v ∈ vs
      · have hstep : nameFoldF (vs, b) v = (vs, b) := by
          simp [nameFoldF, hv, hm]
        rw [hstep, ih]
        simp [hv, firstSeenFrom_cons, hm]
      · have hstep : nameFoldF (vs, b) v = (vs ++ [v], b) := by
          simp [nameFoldF, hv, hm]
        rw [hstep, ih]
        simp [hv, firstSeenFrom_cons, hm]

/-- The variable-collection step on one name list, flag component: the flag
is set exactly when it was set before or `Constant` occurs in the list. -/
theorem nameFold_snd (l : List String) (vs : List String) (b : Bool) :
    (l.foldl nameFoldF (vs, b)).2 = (b || decide ("Constant" ∈ l)) := by
  induction l generalizing vs b with
  | nil => simp
  | cons v t ih =>
    by_cases hv : v = "Constant"
    · subst hv
      rw [List.foldl_cons]
      show (t.foldl nameFoldF (vs, true)).2 = _
      rw [ih]
      simp
    · rw [List.foldl_cons]
      by_cases hm : v ∈ vs
      · have hstep : nameFoldF (vs, b) v = (vs, b) := by
          simp [nameFoldF, hv, hm]
        rw [hstep, ih]
        simp [Ne.symm hv]
      · have hstep : nameFoldF (vs, b) v = (vs ++ [v], b) := by
          simp [nameFoldF, hv, hm]
        rw [hstep, ih]
        simp [Ne.symm hv]

/-- The model-by-model collection loop equals the name-by-name fold over the
flattened list of all coefficient names. -/
theorem collect_as_nameFold (ms : List FitColumn) (acc : List String × Bool) :
    ms.foldl collectVarsStep acc =
      ((ms.map (fun m => m.coeffs.map Prod.fst)).flatten).foldl nameFoldF acc := by
  induction ms generalizing acc with
  | nil => rfl
  | cons m t ih =>
    rw [List.foldl_cons, List.map_cons, List.flatten_cons, List.foldl_append, ih]
    congr 1
    rw [collectVarsStep, List.foldl_map]

/-- `all_vars` as built by the code equals the order the specification
describes. -/
theorem allVarsOf_eq_spec (ms : List FitColumn) : allVarsOf ms = specVarOrder ms := by
  unfold allVarsOf specVarOrder
  dsimp only
  rw [collect_as_nameFold, nameFold_fst, nameFold_snd]
  by_cases hC : "Constant" ∈ (ms.map (fun m => m.coeffs.map Prod.fst)).flatten
  · simp [hC]
  · simp [hC]

/-- `all_vars` contains no duplicate variable name. -/
theorem allVarsOf_nodup (ms : List FitColumn) : (allVarsOf ms).Nodup := by
  rw [allVarsOf_eq_spec]
  unfold specVarOrder
  dsimp only
  have h1 : (firstSeenFrom []
      (((ms.map (fun m => m.coeffs.map Prod.fst)).flatten).filter
        (fun v => v ≠ "Constant"))).Nodup :=
    nodup_firstSeenFrom _ _ (by simp)
  have h2 : "Constant" ∉ firstSeenFrom []
      (((ms.map (fun m => m.coeffs.map Prod.fst)).flatten).filter
        (fun v => v ≠ "Constant")) := by
    intro hmem
    rcases (mem_firstSeenFrom _ _ _).1 hmem with h | h
    · simp at h
    · have := List.of_mem_filter h
      simp at this
  by_cases hC : "Constant" ∈ (ms.map (fun m => m.coeffs.map Prod.fst)).flatten
  · rw [if_pos hC]
    exact h1.append (List.nodup_singleton _) (List.disjoint_singleton.2 h2)
  · rw [if_neg hC]
    simpa using h1

/-- Membership in the spec variable order is membership among the collected
coefficient names. -/
theorem mem_specVarOrder (ms : List FitColumn) (x : String) :
    x ∈ specVarOrder ms ↔ x ∈ (ms.map (fun m => m.coeffs.map Prod.fst)).flatten := by
  unfold specVarOrder
  by_cases hx : x = "Constant"
  · subst hx
    by_cases hC : "Constant" ∈ (ms.map (fun m => m.coeffs.map Prod.fst)).flatten
    · simp [hC, mem_firstSeenFrom]
    · simp [hC, mem_firstSeenFrom, List.mem_filter]
  · simp [mem_firstSeenFrom, List.mem_filter, hx]

/-- The custom-label collection loop is a first-seen fold over the flattened
label lists. -/
theorem customLabels_as_firstSeen (ms : List FitColumn) (acc : List String) :
    ms.foldl (fun acc m => m.customRows.foldl
      (fun a r => if r.1 ∈ a then a else a ++ [r.1]) acc) acc =
    firstSeenFrom acc ((ms.map (fun m => m.customRows.map Prod.fst)).flatten) := by
  induction ms generalizing acc with
  | nil => rfl
  | cons m t ih =>
    rw [List.foldl_cons, List.map_cons, List.flatten_cons, firstSeenFrom_append, ih]
    congr 1
    rw [firstSeenFrom, List.foldl_map]

/-- Membership among the collected custom-row labels. -/
theorem mem_customLabelsOf (ms : List FitColumn) (x : String) :
    x ∈ customLabelsOf ms ↔
      x ∈ (ms.map (fun m => m.customRows.map Prod.fst)).flatten := by
  unfold customLabelsOf
  rw [customLabels_as_firstSeen, mem_firstSeenFrom]
  simp

/-- Moving `nobs` to the front is idempotent. -/
theorem moveNobsFront_idem (opts : List String) :
    moveNobsFront (moveNobsFront opts) = moveNobsFront opts := by
  by_cases h : "nobs" ∈ opts
  · have h1 : moveNobsFront opts = "nobs" :: opts.erase "nobs" := by
      unfold moveNobsFront
      rw [if_pos h]
    rw [h1]
    unfold moveNobsFront
    rw [if_pos (List.mem_cons_self _ _), List.erase_cons_head]
  · have h1 : moveNobsFront opts = opts := by
      unfold moveNobsFront
      rw [if_neg h]
    rw [h1, h1]

/-! ## C5 — merged-table variable ordering and rows -/

/-- C5: the variable list of `generate_merged_html` is the union of all
models' variable names in first-seen order with the constant forced last
(`specVarOrder`); it has no duplicates; the structured body emits exactly one
coefficient row (with its paired SE/t row) per variable, in that order; and a
model lacking a variable contributes an empty coefficient cell and an empty
SE/t cell. -/
theorem c5_merged_rows (ms : List FitColumn) :
    allVarsOf ms = specVarOrder ms ∧
    (allVarsOf ms).Nodup ∧
    (varRowsOf ms).map (fun r => r.1) = allVarsOf ms ∧
    (∀ m ∈ ms, ∀ v, m.coeffs.lookup v = none → coeffCellOf m v = ("", "")) := by
  refine ⟨allVarsOf_eq_spec ms, allVarsOf_nodup ms, ?_, ?_⟩
  · unfold varRowsOf
    rw [List.map_map]
    exact List.map_id _
  · intro m _ v hv
    unfold coeffCellOf
    rw [hv]
    rfl

/-- C5 witness: the blank-cell clause applied to the concrete column `cmB`
and a variable it lacks. -/
theorem c5_merged_rows_witness : coeffCellOf cmB "zzz" = ("", "") :=
  (c5_merged_rows [cmA, cmB]).2.2.2 cmB
    (List.mem_cons_of_mem _ (List.mem_cons_self _ _)) "zzz" (by rfl)

/-! ## C6 — reformat determinism and column append -/

/-- C6, counterexample to the claim as stated: appending the second model
`cmB` (which carries the extra variable `x2`) to `[cmA]` adds a new variable
row to the merged table — the table does not change by `only adding a new
column`. -/
theorem c6_counterexample :
    (varRowsOf [cmA]).map (fun r => r.1) = ["x1"] ∧
    (varRowsOf [cmA, cmB]).map (fun r => r.1) = ["x1", "x2"] := by
  constructor <;> decide

/-- C6, amended: reformatting is deterministic — in particular the HTML
output is invariant under the in-place `nobs` reordering a first call leaves
behind in the options list, so calling twice with the same arguments yields
byte-identical output; and appending further results to the list preserves
the first result's column — every variable of the one-model table is still a
variable of the extended table, the first cell of every coefficient/SE row
pair is still the first model's cell, every statistic row of the one-model
table persists with the same label and the same first cell, every custom-row
label persists with the same first cell, and the first header cell is
unchanged — while new rows may appear for variables or statistics only the
appended results carry. -/
theorem c6_amended (ms : List FitColumn) (m1 : FitColumn) (rest : List FitColumn)
    (title : String) (d : ℕ) (showSe : Bool) (opts : List String) :
    (generate_merged_html ms title d showSe (some (moveNobsFront opts))).1 =
      (generate_merged_html ms title d showSe (some opts)).1 ∧
    (∀ v, v ∈ allVarsOf [m1] → v ∈ allVarsOf (m1 :: rest)) ∧
    (∀ v, ((m1 :: rest).map (fun m => (coeffCellOf m v).1)).head? =
        some ((coeffCellOf m1 v).1) ∧
      ((m1 :: rest).map (fun m => (coeffCellOf m v).2)).head? =
        some ((coeffCellOf m1 v).2)) ∧
    (∀ row ∈ statRowsOf d [m1] (moveNobsFront opts),
      ∃ row2 ∈ statRowsOf d (m1 :: rest) (moveNobsFront opts),
        row2.1 = row.1 ∧ row2.2.head? = row.2.head?) ∧
    (∀ l, l ∈ customLabelsOf [m1] → l ∈ customLabelsOf (m1 :: rest)) ∧
    (∀ l, ((m1 :: rest).map (fun m => customCellOf m l)).head? =
      some (customCellOf m1 l)) ∧
    ((m1 :: rest).enum.map (fun pr => headerCellOf pr.1 pr.2)).head? =
      some (headerCellOf 0 m1) := by
  refine ⟨?_, ?_, ?_, ?_, ?_, ?_, ?_⟩
  · by_cases hms : ms = []
    · subst hms
      rfl
    · unfold generate_merged_html
      rw [if_neg hms, if_neg hms]
      simp [moveNobsFront_idem]
  · intro v hv
    rw [allVarsOf_eq_spec, mem_specVarOrder] at hv ⊢
    simp only [List.map_cons, List.map_nil, List.flatten_cons, List.flatten_nil,
      List.append_nil, List.mem_append] at hv ⊢
    exact Or.inl hv
  · intro v
    exact ⟨rfl, rfl⟩
  · intro row hrow
    rcases List.mem_filterMap.1 hrow with ⟨opt, hopt, hf⟩
    cases hlk : statsMap.lookup opt with
    | none =>
      rw [hlk] at hf
      simp at hf
    | some lk =>
      rw [hlk] at hf
      dsimp only at hf
      by_cases hall : ([m1].all (fun m => (m.stats.lookup lk.2).isNone)) = true
      · rw [if_pos hall] at hf
        simp at hf
      · rw [if_neg hall] at hf
        have hm1 : (m1.stats.lookup lk.2).isNone = false := by
          simpa using hall
        have hall2 : ((m1 :: rest).all (fun m => (m.stats.lookup lk.2).isNone)) ≠ true := by
          simp [hm1]
        refine ⟨(lk.1, (m1 :: rest).map (fun m => statCellOf d m lk.2)), ?_, ?_, ?_⟩
        · refine List.mem_filterMap.2 ⟨opt, hopt, ?_⟩
          rw [hlk]
          dsimp only
          rw [if_neg hall2]
        · rw [← Option.some_inj.1 hf]
        · rw [← Option.some_inj.1 hf]
          simp
  · intro l hl
    rw [mem_customLabelsOf] at hl ⊢
    simp only [List.map_cons, List.map_nil, List.flatten_cons, List.flatten_nil,
      List.append_nil, List.mem_append] at hl ⊢
    exact Or.inl hl
  · intro l
    rfl
  · rfl

/-- C6 witness: the variable-preservation clause of the amended theorem at
the concrete columns `cmA`, `cmB`. -/
theorem c6_amended_witness : "x1" ∈ allVarsOf [cmA, cmB] :=
  (c6_amended [cmA] cmA [cmB] "T" 3 true ["r2", "nobs"]).2.1 "x1" (by decide)

/-! ## C9 — in-place reordering of the options list -/

/-- C9: for a non-empty model list and an options list containing `nobs`,
`generate_merged_html` leaves the caller's options list with `nobs` moved to
the front: the final state is `nobs` consed onto the list with its first
`nobs` occurrence removed, whose head is `nobs`, and the remaining elements
keep their relative order (they form a subsequence of the original list). -/
theorem c9_options_mutated (ms : List FitColumn) (title : String) (d : ℕ)
    (showSe : Bool) (opts : List String) (hms : ms ≠ []) (hn : "nobs" ∈ opts) :
    (generate_merged_html ms title d showSe (some opts)).2 =
      some ("nobs" :: opts.erase "nobs") ∧
    ("nobs" :: opts.erase "nobs").head? = some "nobs" ∧
    (opts.erase "nobs").Sublist opts := by
  refine ⟨?_, rfl, List.erase_sublist _ _⟩
  simp [generate_merged_html, if_neg hms, moveNobsFront, hn]

/-- C9 witness: the final options state at a concrete call. -/
theorem c9_options_mutated_witness :
    (generate_merged_html [cmA] "T" 3 true (some ["r2", "nobs"])).2 =
      some ("nobs" :: (["r2", "nobs"].erase "nobs")) :=
  (c9_options_mutated [cmA] "T" 3 true ["r2", "nobs"]
    (List.cons_ne_nil _ _) (by decide)).1

/-! ## C10 — the empty model list -/

/-- C10: on the empty `models_data` list, `generate_merged_html` returns the
empty string — not a table skeleton — for every title, decimals, SE flag and
options argument, and the caller's options list is left untouched (the empty
check precedes the `nobs` reordering). -/
theorem c10_empty_models (title : String) (d : ℕ) (showSe : Bool)
    (opts : Option (List String)) :
    generate_merged_html [] title d showSe opts = ("", opts) := rfl
